import Mathlib

/-!
Shallow embedding of the core logic of `src/pdf_sort.py` (PDF Invoice
Organizer): the date extractor (`extract_date_from_text`,
`extract_month_from_french`), the keyword classifier
(`contains_undesired_keywords`, `contains_desired_keywords`), the per-file
pipeline (`process_pdf_file`, `construct_target_file_path`), the statistics
aggregation of `main`, and a small filesystem model for the orchestrator
pre-pass (`unzip_files_in_directory`) and the dry-run mode.

Text is modelled as `List Char`.  Python's `datetime.now().year` is passed
explicitly as a `currentYear` parameter.  The regular expressions of the
source are fixed-shape patterns (fixed-width alternations), embedded as
direct character matchers; `re.search` is embedded as trying the matcher at
every start position from the left.  `datetime.strptime` is embedded for the
ten concrete format strings the source uses, following CPython's
`_strptime.py`: `%d` matches `3[01]|[12]\d|0[1-9]|[1-9]| [1-9]`, `%m`
matches `1[0-2]|0[1-9]|[1-9]`, `%Y` exactly four digits, `%y` exactly two
digits (00-68 resolved to 20xx, 69-99 to 19xx), `%b` a case-insensitive
three-letter English month abbreviation, whitespace in the format one or
more whitespace characters; after the regex match the whole string must have
been consumed and the (day, month, year) triple must be a real calendar
date, else `ValueError` is raised (embedded as `none`).
-/

namespace PdfSort

/-! ### Character and string helpers -/

/-- Numeric value of an ASCII digit character. -/
def digitVal (c : Char) : Nat := c.toNat - '0'.toNat

/-- Python's regex whitespace class `\s` (space, tab, newline, carriage
return, vertical tab, form feed) over the character set we model. -/
def isSpaceChar (c : Char) : Bool :=
  c == ' ' || c == '\t' || c == '\n' || c == Char.ofNat 13 || c == Char.ofNat 11 || c == Char.ofNat 12

/-- Model of Python `str.lower` for the alphabet relevant to this program:
ASCII letters plus the accented capitals that occur in the French month
names used by `extract_month_from_french`. -/
def pyLowerChar (c : Char) : Char :=
  if c.isUpper then Char.ofNat (c.toNat + 32)
  else if c == 'É' then 'é'
  else if c == 'Û' then 'û'
  else if c == 'À' then 'à'
  else if c == 'Â' then 'â'
  else if c == 'Ç' then 'ç'
  else if c == 'È' then 'è'
  else if c == 'Ê' then 'ê'
  else if c == 'Î' then 'î'
  else if c == 'Ô' then 'ô'
  else c

/-- Python `str.lower` lifted to a character list. -/
def pyLower (s : List Char) : List Char := s.map pyLowerChar

/-- Whether `needle` occurs at the very start of the second list. -/
def headMatches : List Char → List Char → Bool
  | [], _ => true
  | _ :: _, [] => false
  | a :: s, b :: t => a == b && headMatches s t

/-- Python's substring test `needle in haystack`. -/
def containsSub (needle : List Char) : List Char → Bool
  | [] => needle.isEmpty
  | c :: t => headMatches needle (c :: t) || containsSub needle t

/-- Drop leading whitespace (left part of Python `str.strip`). -/
def lstripCs (s : List Char) : List Char := s.dropWhile (fun c => isSpaceChar c)

/-- Python `str.strip()`. -/
def stripCs (s : List Char) : List Char :=
  ((lstripCs s).reverse.dropWhile (fun c => isSpaceChar c)).reverse

/-- Helper for `splitWs`: accumulate the current word (reversed). -/
def splitWsAux : List Char → List Char → List (List Char)
  | [], acc => if acc.isEmpty then [] else [acc.reverse]
  | c :: t, acc =>
    if isSpaceChar c then
      if acc.isEmpty then splitWsAux t [] else acc.reverse :: splitWsAux t []
    else splitWsAux t (c :: acc)

/-- Python `str.split()` with no arguments: split on whitespace runs,
dropping empty words. -/
def splitWs (s : List Char) : List (List Char) := splitWsAux s []

/-- Return the first `some` produced by `f` over the list, scanning left to
right.  This is the shape of every "first match wins" loop in the source:
a `for` loop whose body either `return`s or falls through to the next
iteration. -/
def pickFirst {α β : Type _} : List α → (α → Option β) → Option β
  | [], _ => none
  | a :: t, f =>
    match f a with
    | some b => some b
    | none => pickFirst t f

/-! ### The eleven date regular expressions (src/pdf_sort.py lines 195-210)

Each pattern is embedded as a matcher that either matches at the head of the
given character list and returns the matched text (regex group 0), or fails.
All alternations in these patterns are fixed width and mutually exclusive,
so matching at a position is deterministic. -/

/-- Day alternation `(0[1-9]|[1-2][0-9]|3[01])` of the search patterns. -/
def isDay2 (a b : Char) : Bool :=
  (a == '0' && b.isDigit && b != '0') || ((a == '1' || a == '2') && b.isDigit) ||
    (a == '3' && (b == '0' || b == '1'))

/-- Month alternation `(0[1-9]|1[0-2])` of the search patterns. -/
def isMonth2 (a b : Char) : Bool :=
  (a == '0' && b.isDigit && b != '0') || (a == '1' && (b == '0' || b == '1' || b == '2'))

/-- Separator used by the numeric search patterns. -/
inductive RSep | slash | dot | wsp | dash
deriving DecidableEq

/-- Whether a character matches the given separator (for `wsp` the regex
class `[\s]`). -/
def rsepOk : RSep → Char → Bool
  | .slash, c => c == '/'
  | .dot, c => c == '.'
  | .wsp, c => isSpaceChar c
  | .dash, c => c == '-'

/-- Match `(0[1-9]|[1-2][0-9]|3[01]) sep (0[1-9]|1[0-2]) sep (20[0-9]{2})`
at the head of the list (patterns for 4-digit years, lines 197-200). -/
def matchY4At (sep : RSep) : List Char → Option (List Char)
  | d1 :: d2 :: s1 :: m1 :: m2 :: s2 :: y1 :: y2 :: y3 :: y4 :: _ =>
    if isDay2 d1 d2 && rsepOk sep s1 && isMonth2 m1 m2 && rsepOk sep s2 &&
        y1 == '2' && y2 == '0' && y3.isDigit && y4.isDigit then
      some [d1, d2, s1, m1, m2, s2, y1, y2, y3, y4]
    else none
  | _ => none

/-- Lookahead `(?=[\s\-:]|$)` after the 2-digit-year patterns. -/
def look2Ok : List Char → Bool
  | [] => true
  | c :: _ => isSpaceChar c || c == '-' || c == ':'

/-- Match `day sep month sep [0-9]{2}` followed by the lookahead
(patterns for 2-digit years, lines 203-206).  The lookahead is not part of
the returned match. -/
def matchY2At (sep : RSep) : List Char → Option (List Char)
  | d1 :: d2 :: s1 :: m1 :: m2 :: s2 :: y1 :: y2 :: rest =>
    if isDay2 d1 d2 && rsepOk sep s1 && isMonth2 m1 m2 && rsepOk sep s2 &&
        y1.isDigit && y2.isDigit && look2Ok rest then
      some [d1, d2, s1, m1, m2, s2, y1, y2]
    else none
  | _ => none

/-- Match the ISO pattern `(20[0-9]{2})-(0[1-9]|1[0-2])-(0[1-9]|[12][0-9]|3[01])`
(line 201). -/
def matchIsoAt : List Char → Option (List Char)
  | y1 :: y2 :: y3 :: y4 :: s1 :: m1 :: m2 :: s2 :: d1 :: d2 :: _ =>
    if y1 == '2' && y2 == '0' && y3.isDigit && y4.isDigit && s1 == '-' &&
        isMonth2 m1 m2 && s2 == '-' && isDay2 d1 d2 then
      some [y1, y2, y3, y4, s1, m1, m2, s2, d1, d2]
    else none
  | _ => none

/-- Match `20[0-9]{2}` at the head, returning the four characters. -/
def year4Take : List Char → Option (List Char)
  | y1 :: y2 :: y3 :: y4 :: _ =>
    if y1 == '2' && y2 == '0' && y3.isDigit && y4.isDigit then some [y1, y2, y3, y4] else none
  | _ => none

/-- Match the `\.?\s(20[0-9]{2})` tail of the abbreviated-month pattern.
The optional dot is greedy; if taking it leaves no whitespace, the regex
backtracks to the empty alternative, which then requires whitespace at the
dot itself and therefore fails. -/
def matchMonTail : List Char → Option (List Char)
  | [] => none
  | c1 :: rest1 =>
    if c1 == '.' then
      match rest1 with
      | c2 :: rest2 =>
        if isSpaceChar c2 then (year4Take rest2).map (fun y => '.' :: c2 :: y) else none
      | [] => none
    else if isSpaceChar c1 then (year4Take rest1).map (fun y => c1 :: y)
    else none

/-- Match the abbreviated month-name pattern
`(0[1-9]|[1-2][0-9]|3[01])\s[A-Za-z]{3}\.?\s(20[0-9]{2})` (line 208). -/
def matchDMonAt : List Char → Option (List Char)
  | d1 :: d2 :: s1 :: a1 :: a2 :: a3 :: rest =>
    if isDay2 d1 d2 && isSpaceChar s1 && a1.isAlpha && a2.isAlpha && a3.isAlpha then
      (matchMonTail rest).map (fun t => d1 :: d2 :: s1 :: a1 :: a2 :: a3 :: t)
    else none
  | _ => none

/-- The twelve capitalised English month names of the long-month pattern
(line 209), in the alternation order of the source. -/
def monthNamesEn : List (List Char) :=
  ["January".toList, "February".toList, "March".toList, "April".toList, "May".toList,
   "June".toList, "July".toList, "August".toList, "September".toList, "October".toList,
   "November".toList, "December".toList]

/-- Match the `\s(0[1-9]|1[0-2]),\s(20[0-9]{2})` tail of the long-month
pattern.  Note the day group of that pattern is the month alternation
`(0[1-9]|1[0-2])`, exactly as written in the source. -/
def matchLongTail : List Char → Option (List Char)
  | sp1 :: m1 :: m2 :: cm :: sp2 :: y1 :: y2 :: y3 :: y4 :: _ =>
    if isSpaceChar sp1 && isMonth2 m1 m2 && cm == ',' && isSpaceChar sp2 &&
        y1 == '2' && y2 == '0' && y3.isDigit && y4.isDigit then
      some [sp1, m1, m2, cm, sp2, y1, y2, y3, y4]
    else none
  | _ => none

/-- Match the long-month pattern
`(?:January|...|December)\s(0[1-9]|1[0-2]),\s(20[0-9]{2})` (line 209).
No month name is a prefix of another, so trying the names in order is the
regex alternation. -/
def matchLongMonthAt (s : List Char) : Option (List Char) :=
  pickFirst monthNamesEn (fun nm =>
    if headMatches nm s then (matchLongTail (s.drop nm.length)).map (fun t => nm ++ t) else none)

/-- The eleven date patterns of `date_formats` (lines 195-210). -/
inductive DPat
  | slash4 | dot4 | ws4 | dash4 | iso | slash2 | dot2 | ws2 | dash2 | dMonY | longMonth
deriving DecidableEq

/-- Matcher of each pattern at one position. -/
def patMatchAt : DPat → List Char → Option (List Char)
  | .slash4, s => matchY4At .slash s
  | .dot4, s => matchY4At .dot s
  | .ws4, s => matchY4At .wsp s
  | .dash4, s => matchY4At .dash s
  | .iso, s => matchIsoAt s
  | .slash2, s => matchY2At .slash s
  | .dot2, s => matchY2At .dot s
  | .ws2, s => matchY2At .wsp s
  | .dash2, s => matchY2At .dash s
  | .dMonY, s => matchDMonAt s
  | .longMonth, s => matchLongMonthAt s

/-- The pattern list in source order. -/
def datePatterns : List DPat :=
  [.slash4, .dot4, .ws4, .dash4, .iso, .slash2, .dot2, .ws2, .dash2, .dMonY, .longMonth]

/-- Python `re.search`: try the matcher at every start position from the
left and return the first (leftmost) match. -/
def reSearch (m : List Char → Option (List Char)) : List Char → Option (List Char)
  | [] => m []
  | c :: t =>
    match m (c :: t) with
    | some r => some r
    | none => reSearch m t

/-! ### `datetime.strptime` for the ten formats of line 222-223 -/

/-- Candidate parses of strptime's `%d`, in the alternation order
`3[01]|[12]\d|0[1-9]|[1-9]| [1-9]` of CPython's `_strptime.py`; each
candidate is the parsed day together with the remaining input. -/
def dayCandidates (s : List Char) : List (Nat × List Char) :=
  (match s with
   | a :: b :: r => if a == '3' && (b == '0' || b == '1') then [(30 + digitVal b, r)] else []
   | _ => []) ++
  (match s with
   | a :: b :: r =>
     if (a == '1' || a == '2') && b.isDigit then [(10 * digitVal a + digitVal b, r)] else []
   | _ => []) ++
  (match s with
   | a :: b :: r => if a == '0' && b.isDigit && b != '0' then [(digitVal b, r)] else []
   | _ => []) ++
  (match s with
   | a :: r => if a.isDigit && a != '0' then [(digitVal a, r)] else []
   | _ => []) ++
  (match s with
   | a :: b :: r => if a == ' ' && b.isDigit && b != '0' then [(digitVal b, r)] else []
   | _ => [])

/-- Candidate parses of strptime's `%m`, alternation order
`1[0-2]|0[1-9]|[1-9]`. -/
def monthCandidates (s : List Char) : List (Nat × List Char) :=
  (match s with
   | a :: b :: r =>
     if a == '1' && (b == '0' || b == '1' || b == '2') then [(10 + digitVal b, r)] else []
   | _ => []) ++
  (match s with
   | a :: b :: r => if a == '0' && b.isDigit && b != '0' then [(digitVal b, r)] else []
   | _ => []) ++
  (match s with
   | a :: r => if a.isDigit && a != '0' then [(digitVal a, r)] else []
   | _ => [])

/-- strptime's `%Y`: exactly four digits. -/
def year4Parse : List Char → Option (Nat × List Char)
  | a :: b :: c :: d :: r =>
    if a.isDigit && b.isDigit && c.isDigit && d.isDigit then
      some (1000 * digitVal a + 100 * digitVal b + 10 * digitVal c + digitVal d, r)
    else none
  | _ => none

/-- strptime's `%y`: exactly two digits. -/
def year2Parse : List Char → Option (Nat × List Char)
  | a :: b :: r => if a.isDigit && b.isDigit then some (10 * digitVal a + digitVal b, r) else none
  | _ => none

/-- strptime's century resolution for `%y` (0-68 becomes 20xx, 69-99
becomes 19xx). -/
def resolveY2 (v : Nat) : Nat := if v ≤ 68 then 2000 + v else 1900 + v

/-- Separator inside a strptime format string: a literal character, or the
whitespace run `\s+` that a space in the format compiles to. -/
inductive TSep | slash | dot | dash | wsp
deriving DecidableEq

/-- Parse one format separator. -/
def tsepParse (sep : TSep) (s : List Char) : Option (List Char) :=
  match s with
  | [] => none
  | c :: r =>
    match sep with
    | .slash => if c == '/' then some r else none
    | .dot => if c == '.' then some r else none
    | .dash => if c == '-' then some r else none
    | .wsp => if isSpaceChar c then some (r.dropWhile (fun x => isSpaceChar x)) else none

/-- The lowercase English month abbreviations that strptime's `%b` matches
(case-insensitively), in order. -/
def monthAbbrevs : List (List Char) :=
  ["jan".toList, "feb".toList, "mar".toList, "apr".toList, "may".toList, "jun".toList,
   "jul".toList, "aug".toList, "sep".toList, "oct".toList, "nov".toList, "dec".toList]

/-- Index lookup for `%b` (1-based month number). -/
def abbrevLookup : List (List Char) → List Char → Nat → Option Nat
  | [], _, _ => none
  | nm :: t, key, i => if nm == key then some i else abbrevLookup t key (i + 1)

/-- strptime's `%b`: three letters, case-insensitive month abbreviation. -/
def bParse (s : List Char) : Option (Nat × List Char) :=
  match s with
  | a :: b :: c :: r =>
    match abbrevLookup monthAbbrevs [pyLowerChar a, pyLowerChar b, pyLowerChar c] 1 with
    | some m => some (m, r)
    | none => none
  | _ => none

/-- Run the regex of a `%d sep %m sep (%Y|%y)` format, returning the
preferred match `(day, month, year, unconsumed rest)`.  Candidates are tried
in alternation order with backtracking, exactly as the compiled regex
does; for `%y` the year is already century-resolved, as `date_obj.year`
is. -/
def runDmyRaw (sep : TSep) (two : Bool) (s : List Char) : Option (Nat × Nat × Nat × List Char) :=
  pickFirst (dayCandidates s) (fun dc =>
    (tsepParse sep dc.2).bind (fun r1 =>
      pickFirst (monthCandidates r1) (fun mc =>
        (tsepParse sep mc.2).bind (fun r2 =>
          (if two then (year2Parse r2).map (fun yc => (resolveY2 yc.1, yc.2)) else year4Parse r2).map
            (fun yc => (dc.1, mc.1, yc.1, yc.2))))))

/-- Run the regex of the `%d %b %Y` format. -/
def runDbYRaw (s : List Char) : Option (Nat × Nat × Nat × List Char) :=
  pickFirst (dayCandidates s) (fun dc =>
    (tsepParse .wsp dc.2).bind (fun r1 =>
      (bParse r1).bind (fun mc =>
        (tsepParse .wsp mc.2).bind (fun r2 =>
          (year4Parse r2).map (fun yc => (dc.1, mc.1, yc.1, yc.2))))))

/-- Run the regex of the `%Y-%m-%d` format. -/
def runYmdRaw (s : List Char) : Option (Nat × Nat × Nat × List Char) :=
  (year4Parse s).bind (fun yc =>
    (tsepParse .dash yc.2).bind (fun r1 =>
      pickFirst (monthCandidates r1) (fun mc =>
        (tsepParse .dash mc.2).bind (fun r2 =>
          pickFirst (dayCandidates r2) (fun dc => some (dc.1, mc.1, yc.1, dc.2))))))

/-- Gregorian leap year as `datetime` uses it. -/
def isLeapYear (y : Nat) : Bool := y % 4 == 0 && (y % 100 != 0 || y % 400 == 0)

/-- Days in a month, as `datetime` validates. -/
def daysInMonth (y m : Nat) : Nat :=
  if m == 2 then (if isLeapYear y then 29 else 28)
  else if m == 4 || m == 6 || m == 9 || m == 11 then 30
  else 31

/-- Validity of the `datetime(year, month, day)` construction
(`MINYEAR = 1`, `MAXYEAR = 9999`). -/
def validDmy (y m d : Nat) : Bool :=
  Nat.ble 1 y && Nat.ble y 9999 && Nat.ble 1 m && Nat.ble m 12 &&
    Nat.ble 1 d && Nat.ble d (daysInMonth y m)

/-- The ten formats tried on a matched date string (lines 222-223),
in source order. -/
inductive Tmpl
  | dmy (sep : TSep) (two : Bool)
  | dbY
  | ymd
deriving DecidableEq

/-- Format list in source order:
`%d/%m/%Y, %d.%m.%Y, %d-%m-%Y, %d/%m/%y, %d.%m.%y, %d-%m-%y, %d %m %Y,
%d %m %y, %d %b %Y, %Y-%m-%d`. -/
def templates : List Tmpl :=
  [.dmy .slash false, .dmy .dot false, .dmy .dash false,
   .dmy .slash true, .dmy .dot true, .dmy .dash true,
   .dmy .wsp false, .dmy .wsp true, .dbY, .ymd]

/-- Python's `fmt.endswith` test of line 226 applied to each format. -/
def isTwoDigitTmpl : Tmpl → Bool
  | .dmy _ two => two
  | _ => false

/-- Regex phase of strptime for one format. -/
def runTmplRaw : Tmpl → List Char → Option (Nat × Nat × Nat × List Char)
  | .dmy sep two, s => runDmyRaw sep two s
  | .dbY, s => runDbYRaw s
  | .ymd, s => runYmdRaw s

/-- `datetime.strptime(s, fmt)` for one of the ten formats: regex match,
full-consumption check, calendar validity; returns
`(date_obj.month, date_obj.year)` or `none` for `ValueError`. -/
def strptimeTmpl (t : Tmpl) (s : List Char) : Option (Nat × Nat) :=
  match runTmplRaw t s with
  | none => none
  | some (d, m, y, rest) => if rest.isEmpty && validDmy y m d then some (m, y) else none

/-- The inner `for fmt in (...)` loop of lines 222-237: try each format; on
success apply the 2-digit-year normalisation of lines 226-229 and the year
range check of line 231, continuing with the next format when the parse
fails or the year is out of range. -/
def tryTemplates (currentYear : Nat) (s : List Char) : Option (Nat × Nat) :=
  pickFirst templates (fun t =>
    match strptimeTmpl t s with
    | none => none
    | some (m, yObj) =>
      let year := if isTwoDigitTmpl t then 2000 + yObj % 100 else yObj
      if 1900 ≤ year ∧ year ≤ currentYear + 1 then some (m, year) else none)

/-- The matched-text cleanup of lines 215-219: strip, then if the match
contains both a dash and a colon keep only the part before the first dash
(stripped). -/
def cleanMatched (mt : List Char) : List Char :=
  let st := stripCs mt
  if st.contains '-' && st.contains ':' then stripCs (st.takeWhile (fun c => c != '-')) else st

/-- The numeric-pattern part of `extract_date_from_text` (the
`for date_format in date_formats` loop, lines 212-237): first pattern with
a match anywhere in the text wins; its leftmost match is cleaned and run
through the templates; if no template accepts it, continue with the next
pattern. -/
def extractDateNumeric (currentYear : Nat) (text : List Char) : Option (Nat × Nat) :=
  pickFirst datePatterns (fun p =>
    match reSearch (patMatchAt p) text with
    | none => none
    | some mt => tryTemplates currentYear (cleanMatched mt))

/-- Decimal digits of a natural number (`str(n)` / `repr`). -/
def natDigits (n : Nat) : List Char := Nat.toDigits 10 n

/-- Python's `f"{n:02d}"` for the month numbers used here. -/
def pad2 (n : Nat) : List Char := if n < 10 then '0' :: natDigits n else natDigits n

/-- The French month table of `extract_month_from_french` (lines 174-178),
in insertion order. -/
def monthsFrench : List (List Char × Nat) :=
  [("janvier".toList, 1), ("février".toList, 2), ("mars".toList, 3), ("avril".toList, 4),
   ("mai".toList, 5), ("juin".toList, 6), ("juillet".toList, 7), ("août".toList, 8),
   ("septembre".toList, 9), ("octobre".toList, 10), ("novembre".toList, 11),
   ("décembre".toList, 12)]

/-- Python `word.isdigit()` for the ASCII digits we model (nonempty, all
digits). -/
def allDigitsTok (w : List Char) : Bool := !w.isEmpty && w.all (fun c => c.isDigit)

/-- Numeric value of a digit token (`int(word)`). -/
def natOfDigits (w : List Char) : Nat := w.foldl (fun n c => 10 * n + digitVal c) 0

/-- Line 182: the first whitespace-separated token that is all digits and
has length four, as an integer. -/
def firstYearToken (text : List Char) : Option Nat :=
  pickFirst (splitWs text) (fun w =>
    if allDigitsTok w && w.length == 4 then some (natOfDigits w) else none)

/-- Embedding of `extract_month_from_french` (lines 172-186): for each
French month name in table order, if it occurs in the lowercased text and
the text has a nonzero first 4-digit token `year`, return the formatted
string `f"01/{number:02d}/{year}"`; otherwise continue with the next month
name; `None` when no month succeeds. -/
def extract_month_from_french (text : List Char) : Option (List Char) :=
  pickFirst monthsFrench (fun mn =>
    if containsSub mn.1 (pyLower text) then
      match firstYearToken text with
      | some y => if y != 0 then some ("01/".toList ++ pad2 mn.2 ++ '/' :: natDigits y) else none
      | none => none
    else none)

/-- Embedding of `extract_date_from_text` (lines 189-246): the numeric
pattern loop, then the French fallback parsed with `%d/%m/%Y` (note: the
French path performs no year range check).  Returns `(month, year)` or
`none` for Python's `(None, None)`. -/
def extract_date_from_text (currentYear : Nat) (text : List Char) : Option (Nat × Nat) :=
  match extractDateNumeric currentYear text with
  | some r => some r
  | none =>
    match extract_month_from_french text with
    | none => none
    | some fd => strptimeTmpl (.dmy .slash false) fd

end PdfSort


namespace PdfSort

/-! ### Keyword classifier (src/pdf_sort.py lines 254-265) -/

/-- The apostrophe character. -/
def apostropheChar : Char := Char.ofNat 39

/-- Default undesired keyword list of `contains_undesired_keywords`
(line 254): the single phrase "ceci n'est pas une facture". -/
def undesiredDefault : List (List Char) :=
  ["ceci n".toList ++ [apostropheChar] ++ "est pas une facture".toList]

/-- Default desired keyword list of `contains_desired_keywords`
(line 259). -/
def desiredDefault : List (List Char) :=
  ["facture".toList, "invoice".toList, "rechnung".toList, "facturation".toList,
   "repas".toList]

/-- Embedding of `contains_undesired_keywords` (lines 254-256): each
keyword is lowercased and tested as a substring of the text as given. -/
def contains_undesired_keywords (text : List Char)
    (specific_keywords : List (List Char) := undesiredDefault) : Bool :=
  specific_keywords.any (fun keyword => containsSub (pyLower keyword) text)

/-- Embedding of `contains_desired_keywords` (lines 259-265); the verbose
printing does not affect the returned value. -/
def contains_desired_keywords (text : List Char)
    (specific_keywords : List (List Char) := desiredDefault) : Bool :=
  specific_keywords.any (fun keyword => containsSub (pyLower keyword) text)

/-! ### Per-file pipeline (src/pdf_sort.py lines 268-367) -/

/-- Terminal classification outcome of one file. -/
inductive Outcome
  | nonInvoice
  | sortedInvoice (month year : Nat)
  | unsortable
  | error
deriving DecidableEq

/-- Result of the text-extraction phase of `process_pdf_file` (lines
277-303): either the accumulated lowercased text together with whether any
OCR invocation happened, or a raised exception (`fitz.open` failure or any
extraction-time error), which the handler of lines 349-356 receives. -/
inductive Extraction
  | ok (text : List Char) (ocrUsed : Bool)
  | fail
deriving DecidableEq

/-- Effects of one `process_pdf_file` call: the statistics increments
performed under `stats_lock`, the file appended to `unsorted_files` (if
any), the move performed (source, destination; `none` in dry-run or when no
move happens), and the terminal outcome. -/
structure ProcResult where
  dSorted : Nat := 0
  dUnsorted : Nat := 0
  dErrors : Nat := 0
  dCommande : Nat := 0
  dOcr : Nat := 0
  unsortedAppend : Option String := none
  move : Option (String × String) := none
  outcome : Outcome
deriving DecidableEq

/-- POSIX `os.path.join` for the relative component paths this program
builds. -/
def pathJoin (a b : String) : String := a ++ "/" ++ b

/-- POSIX `os.path.basename`. -/
def basenameOf (p : String) : String :=
  String.mk ((p.toList.reverse.takeWhile (fun c => c != '/')).reverse)

/-- POSIX `os.path.splitext`: split at the last dot, except when the name
has no dot or only leading dots. -/
def splitExtOf (name : String) : String × String :=
  let cs := name.toList
  let revExt := cs.reverse.takeWhile (fun c => c != '.')
  if revExt.length == cs.length then (name, "")
  else
    let stem := cs.take (cs.length - revExt.length - 1)
    if stem.all (fun c => c == '.') then (name, "")
    else (String.mk stem, String.mk ('.' :: revExt.reverse))

/-- Embedding of `construct_target_file_path` (lines 359-367).  The
filesystem existence check is passed in as `existsF`, and the random
3-character suffix of `generate_random_suffix` as `suffix`. -/
def construct_target_file_path (existsF : String → Bool) (suffix : String)
    (target_folder_path filepath : String) : String :=
  let target := pathJoin target_folder_path (basenameOf filepath)
  if existsF target then
    let se := splitExtOf (basenameOf filepath)
    pathJoin target_folder_path (se.1 ++ "_" ++ suffix ++ se.2)
  else target

/-- Decimal string of a natural number (Python `str`). -/
def natStr (n : Nat) : String := String.mk (natDigits n)

/-- Embedding of the decision phase of `process_pdf_file` (lines 268-356),
given the outcome of the extraction phase.  The `year` argument is the
year filter of `main`; as in the source it is bound but never read.
Mirrors the source exactly: on extraction failure, one error and one
unsorted increment and the file is appended to the unsorted list (lines
349-356); otherwise the date is extracted (line 309), and the undesired
check (line 311), the keyword check (line 322), and the date presence check
(line 323) select the branch; moves only happen when `dryRun` is false
(lines 313-316 and 332-335). -/
def process_pdf_file (cwd : String) (filepath : String) (year : Option Nat)
    (keywords : List (List Char)) (currentYear : Nat) (dryRun : Bool)
    (existsF : String → Bool) (suffix : String) (ex : Extraction) : ProcResult :=
  match ex with
  | .fail =>
    { dErrors := 1, dUnsorted := 1, unsortedAppend := some filepath, outcome := .error }
  | .ok text ocrUsed =>
    let dOcr : Nat := if ocrUsed then 1 else 0
    let dateFound := extract_date_from_text currentYear text
    if contains_undesired_keywords text then
      let folder := pathJoin cwd "commande"
      { dOcr := dOcr, dCommande := 1, dSorted := 1, outcome := .nonInvoice,
        move := if dryRun then none
                else some (filepath, construct_target_file_path existsF suffix folder filepath) }
    else if keywords.any (fun k => containsSub (pyLower k) text) ||
        contains_desired_keywords text then
      match dateFound with
      | none => { dOcr := dOcr, dUnsorted := 1, unsortedAppend := some filepath,
                  outcome := .unsortable }
      | some (m, y) =>
        let folder :=
          pathJoin (pathJoin (pathJoin cwd (natStr y)) "Facture fournisseur") (String.mk (pad2 m))
        { dOcr := dOcr, dSorted := 1, outcome := .sortedInvoice m y,
          move := if dryRun then none
                  else some (filepath, construct_target_file_path existsF suffix folder filepath) }
    else { dOcr := dOcr, dUnsorted := 1, unsortedAppend := some filepath,
           outcome := .unsortable }

/-! ### Statistics aggregation (src/pdf_sort.py lines 58-68, 512-541) -/

/-- The `STATS` dictionary counters (timestamps omitted). -/
structure Stats where
  total_files : Nat := 0
  sorted_files : Nat := 0
  unsorted_files : Nat := 0
  ocr_processed : Nat := 0
  commande_files : Nat := 0
  errors : Nat := 0
  zip_extracted : Nat := 0
deriving DecidableEq

/-- Apply the counter increments of one pipeline call to the shared
statistics (all updates in the source happen under `stats_lock`, so the
concurrent execution is equivalent to applying them in some order). -/
def applyResult (st : Stats) (r : ProcResult) : Stats :=
  { st with
    sorted_files := st.sorted_files + r.dSorted,
    unsorted_files := st.unsorted_files + r.dUnsorted,
    errors := st.errors + r.dErrors,
    commande_files := st.commande_files + r.dCommande,
    ocr_processed := st.ocr_processed + r.dOcr }

/-- One discovered file as the orchestrator hands it to the pipeline: its
path, the result of its extraction phase, and the environment of its move
(existing-path test and random suffix). -/
structure FileTask where
  filepath : String
  ex : Extraction
  existsF : String → Bool
  suffix : String

/-- The dispatch of `main` (lines 512-541): `total_files` is set to the
number of discovered files (line 513) and every file is processed once by
`process_pdf_file`. -/
def runPipelines (cwd : String) (year : Option Nat) (keywords : List (List Char))
    (currentYear : Nat) (dryRun : Bool) (tasks : List FileTask) : Stats :=
  tasks.foldl
    (fun st t =>
      applyResult st
        (process_pdf_file cwd t.filepath year keywords currentYear dryRun t.existsF t.suffix t.ex))
    { total_files := tasks.length }

/-- The extra keyword list that `main` builds (line 494) before appending
the caller-supplied words: note the source spells "fechnung". -/
def mainKeywords : List (List Char) :=
  ["facture".toList, "invoice".toList, "fechnung".toList, "ticket".toList,
   "justificatif".toList]

end PdfSort

namespace PdfSort

/-! ### Filesystem model for the ZIP pre-pass and the orchestrator run
(src/pdf_sort.py lines 370-407, 472-545)

The working directory is modelled as a flat listing of named files.  PDF
discovery in the source walks up to two subdirectory levels and skips
`commande` and year-named directories; since those rules only concern
nested directories, names here stand for relative paths and discovery is
the `.pdf`-extension filter of line 385. -/

/-- Content of one file: a document whose pipeline extraction phase yields
the given result, or a ZIP archive whose entries describe the files
`extractall` writes (an entry's content is recorded as the extraction
result the pipeline would obtain from it). -/
inductive FileData
  | doc (ex : Extraction)
  | zipData (entries : List (String × Extraction))
deriving DecidableEq

/-- The working directory: a listing of (name, content) pairs. -/
abbrev World := List (String × FileData)

/-- Filesystem lookup (first file with the given name). -/
def lookupW : World → String → Option FileData
  | [], _ => none
  | (m, d) :: t, n => if n = m then some d else lookupW t n

/-- Create or overwrite a file. -/
def writeW : World → String → FileData → World
  | [], n, d => [(n, d)]
  | (m, x) :: t, n, d => if n = m then (m, d) :: t else (m, x) :: writeW t n d

/-- Remove a file (used by `shutil.move`). -/
def removeW : World → String → World
  | [], _ => []
  | (m, x) :: t, n => if n = m then t else (m, x) :: removeW t n

/-- Directory listing, in order. -/
def keysW (w : World) : List String := w.map Prod.fst

/-- Python `name.endswith(suffix)`. -/
def endsWithS (n suffix : String) : Bool :=
  headMatches suffix.toList.reverse n.toList.reverse

/-- The `.zip`-named files of the listing, computed before extraction
starts (line 394; `endswith` is case-sensitive there). -/
def zipNames (w : World) : List String := (keysW w).filter (fun n => endsWithS n ".zip")

/-- The sequence of file writes `zip_ref.extractall` performs for the
given file content: all entries for an archive, nothing when opening the
file as a ZIP fails (the per-archive handler of lines 406-407 swallows the
error). -/
def entryWrites : Option FileData → List (String × FileData)
  | some (.zipData es) => es.map (fun e => (e.1, FileData.doc e.2))
  | _ => []

/-- Apply a list of writes in order. -/
def applyWrites (w : World) (ws : List (String × FileData)) : World :=
  ws.foldl (fun v p => writeW v p.1 p.2) w

/-- Extract one archive by name: open the file currently bearing this name
and write all its entries into the directory, overwriting. -/
def unzipOne (w : World) (name : String) : World :=
  applyWrites w (entryWrites (lookupW w name))

/-- Embedding of `unzip_files_in_directory` (lines 392-407): list the
`.zip` names first, then extract each in order.  In the source this
pre-pass runs in every mode, dry-run included (`main`, line 509). -/
def unzip_files_in_directory (w : World) : World := (zipNames w).foldl unzipOne w

/-- Lowercased `.pdf` extension test of `find_pdf_files` (line 385). -/
def isPdfName (n : String) : Bool := endsWithS (String.mk (pyLower n.toList)) ".pdf"

/-- The discovered candidate files of `find_pdf_files` in the flat model. -/
def find_pdf_files (w : World) : List String := (keysW w).filter isPdfName

/-- A `shutil.move` from `src` to `dst`. -/
def applyMove (w : World) (src dst : String) : World :=
  match lookupW w src with
  | some d => writeW (removeW w src) dst d
  | none => w

/-- One step of the orchestrator's dispatch loop: process the named file
against the current directory state and apply the move it performs (none
in dry-run), recording the reported decision. -/
def mainStep (currentYear : Nat) (keywords : List (List Char)) (dryRun : Bool)
    (acc : World × List (String × Outcome)) (n : String) : World × List (String × Outcome) :=
  let r :=
    match lookupW acc.1 n with
    | some (.doc ex) =>
      process_pdf_file "." n none keywords currentYear dryRun
        (fun s => (lookupW acc.1 s).isSome) "" ex
    | _ =>
      process_pdf_file "." n none keywords currentYear dryRun
        (fun s => (lookupW acc.1 s).isSome) "" .fail
  let w2 :=
    match r.move with
    | some (src, dst) => applyMove acc.1 src dst
    | none => acc.1
  (w2, acc.2 ++ [(n, r.outcome)])

/-- The orchestrator run of `main` over the model directory (lines
506-545): ZIP pre-pass, discovery, one pipeline call per discovered file,
returning the final directory state and the reported per-file decisions.
The `delete_empty_folders` post-pass (skipped in dry-run, line 544)
touches only empty directories, which the flat model does not represent. -/
def mainRun (currentYear : Nat) (keywords : List (List Char)) (dryRun : Bool) (w0 : World) :
    World × List (String × Outcome) :=
  let w1 := unzip_files_in_directory w0
  (find_pdf_files w1).foldl (mainStep currentYear keywords dryRun) (w1, [])

/-- No archive entry is itself named like a `.zip` file (such an entry
would overwrite an archive during extraction). -/
def goodZipEntries (w : World) : Bool :=
  w.all (fun f =>
    match f.2 with
    | .zipData es => es.all (fun e => !endsWithS e.1 ".zip")
    | _ => true)

end PdfSort

namespace PdfSort

/-! ### Worker-pool sizing (src/pdf_sort.py line 531) -/

/-- Result of evaluating a Python expression that may raise `TypeError`. -/
inductive PyEval (α : Type)
  | ok (val : α)
  | typeError
deriving DecidableEq

/-- Embedding of the expression `os.cpu_count()*2 or 1` of line 531.
`os.cpu_count()` returns a positive integer or `None`; Python evaluates
the multiplication before `or`, so the `None` case raises `TypeError`
(`None * 2` is unsupported) instead of reaching the `or 1` default, and
`x or 1` yields 1 exactly when `x` is falsy (zero). -/
def threadPoolMaxWorkers : Option Nat → PyEval Nat
  | none => .typeError
  | some n => .ok (if n * 2 = 0 then 1 else n * 2)

/-- The last value a write list assigns to a name, if any. -/
def lastWriteVal : List (String × FileData) → String → Option FileData
  | [], _ => none
  | p :: t, n =>
    match lastWriteVal t n with
    | some d => some d
    | none => if p.1 = n then some p.2 else none

/-- Archive bodies reachable by extraction write only non-`.zip` names. -/
def GoodZips (w : World) : Prop :=
  ∀ z, endsWithS z ".zip" = true →
    ∀ p ∈ entryWrites (lookupW w z), endsWithS p.1 ".zip" = false

/-- The write sequence of the whole ZIP pre-pass: for each `.zip` name of
the original listing, the entries of the archive originally bearing that
name. -/
def allZipWrites (w : World) : List (String × FileData) :=
  (zipNames w).flatMap (fun z => entryWrites (lookupW w z))

/-- The decision reported for one file in dry-run, as a function of the
directory state at dispatch time. -/
def dryOutcome (currentYear : Nat) (keywords : List (List Char)) (v : World) (n : String) :
    Outcome :=
  match lookupW v n with
  | some (.doc ex) =>
    (process_pdf_file "." n none keywords currentYear true
      (fun s => (lookupW v s).isSome) "" ex).outcome
  | _ =>
    (process_pdf_file "." n none keywords currentYear true
      (fun s => (lookupW v s).isSome) "" .fail).outcome

/-- Example directory for the preview-mode theorems: one ZIP archive
containing one PDF. -/
def zipWorldExample : World :=
  [("a.zip", FileData.zipData [("b.pdf", Extraction.ok ("facture 13/07/2023".toList) false)])]


/-! ### Generic helper lemmas -/

theorem pickFirst_some {α β : Type _} {l : List α} {f : α → Option β} {b : β}
    (h : pickFirst l f = some b) : ∃ a, a ∈ l ∧ f a = some b := by
  induction l with
  | nil => simp [pickFirst] at h
  | cons a t ih =>
    rw [pickFirst] at h
    cases hfa : f a with
    | some b' =>
      rw [hfa] at h
      exact ⟨a, List.mem_cons_self a t, by rw [hfa]; exact h⟩
    | none =>
      rw [hfa] at h
      obtain ⟨a', ha', hfa'⟩ := ih h
      exact ⟨a', List.mem_cons_of_mem a ha', hfa'⟩

/-! ### Lemmas about the filesystem model -/

theorem lookupW_writeW (w : World) (n m : String) (d : FileData) :
    lookupW (writeW w n d) m = if m = n then some d else lookupW w m := by
  induction w with
  | nil =>
    simp only [writeW, lookupW]
  | cons p t ih =>
    obtain ⟨pn, px⟩ := p
    by_cases hn : n = pn
    · subst hn
      simp only [writeW, if_pos rfl, lookupW]
      by_cases hm : m = n <;> simp [hm]
    · simp only [writeW, if_neg hn, lookupW, ih]
      by_cases hm : m = pn
      · subst hm
        have hmn : ¬ m = n := fun hc => hn hc.symm
        simp [hmn]
      · by_cases hmn : m = n <;> simp [hm, hmn, hn]

theorem keysW_writeW (w : World) (n : String) (d : FileData) :
    keysW (writeW w n d) = if n ∈ keysW w then keysW w else keysW w ++ [n] := by
  induction w with
  | nil => simp [writeW, keysW]
  | cons p t ih =>
    obtain ⟨pn, px⟩ := p
    by_cases hn : n = pn
    · subst hn
      simp [writeW, keysW, List.mem_cons]
    · simp only [writeW, if_neg hn, keysW, List.map_cons] at ih ⊢
      rw [ih]
      by_cases hmem : n ∈ keysW t
      · simp [keysW] at hmem
        simp [hmem, List.mem_cons, hn]
      · simp [keysW] at hmem
        simp [hmem, List.mem_cons, hn]

theorem lookupW_eq_none_iff (w : World) (n : String) :
    lookupW w n = none ↔ n ∉ keysW w := by
  induction w with
  | nil => simp [lookupW, keysW]
  | cons p t ih =>
    obtain ⟨pn, px⟩ := p
    by_cases hn : n = pn
    · subst hn
      simp [lookupW, keysW]
    · simp [lookupW, hn, keysW, ih, List.mem_cons]

theorem lookupW_isSome_iff (w : World) (n : String) :
    (lookupW w n).isSome = true ↔ n ∈ keysW w := by
  constructor
  · intro h
    by_contra hmem
    rw [(lookupW_eq_none_iff w n).mpr hmem] at h
    simp at h
  · intro hmem
    cases h : lookupW w n with
    | none => exact absurd hmem ((lookupW_eq_none_iff w n).mp h)
    | some d => simp

theorem lookupW_mem (w : World) (n : String) (d : FileData) (h : lookupW w n = some d) :
    (n, d) ∈ w := by
  induction w with
  | nil => simp [lookupW] at h
  | cons p t ih =>
    obtain ⟨pn, px⟩ := p
    by_cases hn : n = pn
    · subst hn
      rw [lookupW, if_pos rfl] at h
      cases h
      exact List.mem_cons_self _ _
    · rw [lookupW, if_neg hn] at h
      exact List.mem_cons_of_mem _ (ih h)

theorem nodup_keysW_writeW (w : World) (n : String) (d : FileData)
    (h : (keysW w).Nodup) : (keysW (writeW w n d)).Nodup := by
  rw [keysW_writeW]
  by_cases hmem : n ∈ keysW w
  · simpa [hmem] using h
  · simp only [hmem, if_false]
    simpa [List.nodup_append] using ⟨h, hmem⟩

theorem applyWrites_append (w : World) (a b : List (String × FileData)) :
    applyWrites w (a ++ b) = applyWrites (applyWrites w a) b :=
  List.foldl_append _ _ _ _

theorem lookupW_applyWrites (ws : List (String × FileData)) (w : World) (n : String) :
    lookupW (applyWrites w ws) n =
      match lastWriteVal ws n with
      | some d => some d
      | none => lookupW w n := by
  induction ws generalizing w with
  | nil => rfl
  | cons p t ih =>
    show lookupW (applyWrites (writeW w p.1 p.2) t) n = _
    rw [ih, lastWriteVal]
    cases lastWriteVal t n with
    | some d => rfl
    | none =>
      simp only
      rw [lookupW_writeW]
      by_cases hn : n = p.1
      · simp [hn]
      · rw [if_neg hn, if_neg (fun hc => hn hc.symm)]

theorem lastWriteVal_isSome_of_mem {ws : List (String × FileData)} {p : String × FileData}
    (h : p ∈ ws) : (lastWriteVal ws p.1).isSome = true := by
  induction ws with
  | nil => simp at h
  | cons q t ih =>
    rw [lastWriteVal]
    cases hq : lastWriteVal t p.1 with
    | some d => simp
    | none =>
      rcases List.mem_cons.mp h with rfl | ht
      · simp
      · have := ih ht
        rw [hq] at this
        simp at this

theorem lastWriteVal_some_mem {ws : List (String × FileData)} {n : String} {d : FileData}
    (h : lastWriteVal ws n = some d) : (n, d) ∈ ws := by
  induction ws with
  | nil => simp [lastWriteVal] at h
  | cons q t ih =>
    rw [lastWriteVal] at h
    cases hq : lastWriteVal t n with
    | some e =>
      rw [hq] at h
      cases h
      exact List.mem_cons_of_mem _ (ih hq)
    | none =>
      rw [hq] at h
      simp only at h
      by_cases hn : q.1 = n
      · rw [if_pos hn] at h
        cases h
        have : q = (n, q.2) := by rw [← hn]
        rw [← this]
        exact List.mem_cons_self _ _
      · rw [if_neg hn] at h
        cases h

theorem keysW_applyWrites_of_mem (ws : List (String × FileData)) (w : World)
    (h : ∀ p ∈ ws, p.1 ∈ keysW w) : keysW (applyWrites w ws) = keysW w := by
  induction ws generalizing w with
  | nil => rfl
  | cons p t ih =>
    show keysW (applyWrites (writeW w p.1 p.2) t) = _
    have hp : p.1 ∈ keysW w := h p (List.mem_cons_self _ _)
    have hkeys : keysW (writeW w p.1 p.2) = keysW w := by rw [keysW_writeW, if_pos hp]
    rw [ih (writeW w p.1 p.2) (fun q hq => by rw [hkeys]; exact h q (List.mem_cons_of_mem _ hq)),
      hkeys]

theorem nodup_keysW_applyWrites (ws : List (String × FileData)) (w : World)
    (h : (keysW w).Nodup) : (keysW (applyWrites w ws)).Nodup := by
  induction ws generalizing w with
  | nil => exact h
  | cons p t ih =>
    exact ih (writeW w p.1 p.2) (nodup_keysW_writeW _ _ _ h)

theorem world_ext (v v' : World) (hk : keysW v = keysW v') (hnd : (keysW v).Nodup)
    (hl : ∀ n, lookupW v n = lookupW v' n) : v = v' := by
  induction v generalizing v' with
  | nil =>
    cases v' with
    | nil => rfl
    | cons q s => simp [keysW] at hk
  | cons p t ih =>
    cases v' with
    | nil => simp [keysW] at hk
    | cons q s =>
      obtain ⟨pn, px⟩ := p
      obtain ⟨qn, qx⟩ := q
      simp only [keysW, List.map_cons, List.cons.injEq] at hk
      obtain ⟨hk1, hk2⟩ := hk
      subst hk1
      have hval := hl pn
      rw [lookupW, if_pos rfl, lookupW, if_pos rfl] at hval
      cases hval
      simp only [keysW, List.map_cons, List.nodup_cons] at hnd
      congr 1
      refine ih s hk2 hnd.2 ?_
      intro n
      by_cases hn : n = pn
      · subst hn
        have h1 : lookupW t n = none := (lookupW_eq_none_iff t n).mpr hnd.1
        have h2 : lookupW s n = none := by
          rw [lookupW_eq_none_iff]
          show n ∉ List.map Prod.fst s
          rw [← hk2]
          exact hnd.1
        rw [h1, h2]
      · have := hl n
        rwa [lookupW, if_neg hn, lookupW, if_neg hn] at this

theorem applyWrites_replay (ws : List (String × FileData)) (w : World)
    (hnd : (keysW w).Nodup) :
    applyWrites (applyWrites w ws) ws = applyWrites w ws := by
  have hmem : ∀ p ∈ ws, p.1 ∈ keysW (applyWrites w ws) := by
    intro p hp
    rw [← lookupW_isSome_iff, lookupW_applyWrites]
    have := lastWriteVal_isSome_of_mem hp
    cases h : lastWriteVal ws p.1 with
    | some d => simp
    | none => rw [h] at this; simp at this
  apply world_ext
  · exact keysW_applyWrites_of_mem ws _ hmem
  · rw [keysW_applyWrites_of_mem ws _ hmem]
    exact nodup_keysW_applyWrites ws w hnd
  · intro n
    rw [lookupW_applyWrites, lookupW_applyWrites]
    cases h : lastWriteVal ws n with
    | some d => simp
    | none => simp [lookupW_applyWrites, h]

end PdfSort

namespace PdfSort

theorem mem_zipNames {w : World} {z : String} (h : z ∈ zipNames w) :
    endsWithS z ".zip" = true :=
  (List.mem_filter.mp h).2

theorem lookupW_applyWrites_nonzip (ws : List (String × FileData)) (v : World) (n : String)
    (hg : ∀ p ∈ ws, endsWithS p.1 ".zip" = false) (hn : endsWithS n ".zip" = true) :
    lookupW (applyWrites v ws) n = lookupW v n := by
  rw [lookupW_applyWrites]
  cases h : lastWriteVal ws n with
  | none => rfl
  | some d =>
    have h1 := hg (n, d) (lastWriteVal_some_mem h)
    rw [hn] at h1
    exact Bool.noConfusion h1

theorem zipNames_writeW (w : World) (n : String) (d : FileData)
    (hn : endsWithS n ".zip" = false) : zipNames (writeW w n d) = zipNames w := by
  unfold zipNames
  rw [keysW_writeW]
  by_cases hmem : n ∈ keysW w
  · rw [if_pos hmem]
  · rw [if_neg hmem, List.filter_append]
    simp [hn]

theorem zipNames_applyWrites (ws : List (String × FileData)) (w : World)
    (hg : ∀ p ∈ ws, endsWithS p.1 ".zip" = false) :
    zipNames (applyWrites w ws) = zipNames w := by
  induction ws generalizing w with
  | nil => rfl
  | cons p t ih =>
    show zipNames (applyWrites (writeW w p.1 p.2) t) = _
    rw [ih _ (fun q hq => hg q (List.mem_cons_of_mem _ hq)),
      zipNames_writeW w p.1 p.2 (hg p (List.mem_cons_self _ _))]

theorem goodZips_of_goodZipEntries {w : World} (hg : goodZipEntries w = true) : GoodZips w := by
  intro z _ p hp
  cases hlk : lookupW w z with
  | none => rw [hlk] at hp; simp [entryWrites] at hp
  | some d =>
    rw [hlk] at hp
    cases d with
    | doc ex => simp [entryWrites] at hp
    | zipData es =>
      simp only [entryWrites, List.mem_map] at hp
      obtain ⟨e, he, rfl⟩ := hp
      have hmem := lookupW_mem w z _ hlk
      have hall := (List.all_eq_true.mp hg) (z, FileData.zipData es) hmem
      simp only at hall
      have hone := (List.all_eq_true.mp hall) e he
      simpa using hone

theorem allZipWrites_nonzip (w : World) (hg : GoodZips w) :
    ∀ p ∈ allZipWrites w, endsWithS p.1 ".zip" = false := by
  intro p hp
  obtain ⟨z, hz, hpz⟩ := List.mem_flatMap.mp hp
  exact hg z (mem_zipNames hz) p hpz

theorem unzip_foldl_eq (w : World) (hg : GoodZips w) :
    ∀ (zs : List String) (v : World),
      (∀ z ∈ zs, endsWithS z ".zip" = true) →
      (∀ n, endsWithS n ".zip" = true → lookupW v n = lookupW w n) →
      zs.foldl unzipOne v = applyWrites v (zs.flatMap (fun z => entryWrites (lookupW w z))) := by
  intro zs
  induction zs with
  | nil => intro v _ _; rfl
  | cons z t ih =>
    intro v hz hpres
    have hz0 : endsWithS z ".zip" = true := hz z (List.mem_cons_self _ _)
    have hstep : unzipOne v z = applyWrites v (entryWrites (lookupW w z)) := by
      unfold unzipOne
      rw [hpres z hz0]
    rw [List.foldl_cons, hstep, List.flatMap_cons, applyWrites_append]
    apply ih
    · intro z' hz'
      exact hz z' (List.mem_cons_of_mem _ hz')
    · intro n hn
      rw [lookupW_applyWrites_nonzip _ _ _ (hg z hz0) hn]
      exact hpres n hn

theorem unzip_eq_applyWrites (w : World) (hg : GoodZips w) :
    unzip_files_in_directory w = applyWrites w (allZipWrites w) := by
  unfold unzip_files_in_directory allZipWrites
  exact unzip_foldl_eq w hg (zipNames w) w (fun z hz => mem_zipNames hz) (fun n _ => rfl)

theorem unzip_lookup_zip (w : World) (hg : GoodZips w) (n : String)
    (hn : endsWithS n ".zip" = true) :
    lookupW (unzip_files_in_directory w) n = lookupW w n := by
  rw [unzip_eq_applyWrites w hg]
  exact lookupW_applyWrites_nonzip _ _ _ (allZipWrites_nonzip w hg) hn

theorem zipNames_unzip (w : World) (hg : GoodZips w) :
    zipNames (unzip_files_in_directory w) = zipNames w := by
  rw [unzip_eq_applyWrites w hg]
  exact zipNames_applyWrites _ _ (allZipWrites_nonzip w hg)

theorem bind_congr_mem {α β : Type _} (l : List α) (f g : α → List β)
    (h : ∀ x ∈ l, f x = g x) : l.flatMap f = l.flatMap g := by
  induction l with
  | nil => rfl
  | cons a t ih =>
    rw [List.flatMap_cons, List.flatMap_cons, h a (List.mem_cons_self _ _),
      ih (fun x hx => h x (List.mem_cons_of_mem _ hx))]

theorem allZipWrites_unzip (w : World) (hg : GoodZips w) :
    allZipWrites (unzip_files_in_directory w) = allZipWrites w := by
  unfold allZipWrites
  rw [zipNames_unzip w hg]
  exact bind_congr_mem _ _ _
    (fun z hz => by rw [unzip_lookup_zip w hg z (mem_zipNames hz)])

theorem goodZips_unzip (w : World) (hg : GoodZips w) :
    GoodZips (unzip_files_in_directory w) := by
  intro z hz p hp
  rw [unzip_lookup_zip w hg z hz] at hp
  exact hg z hz p hp

theorem unzip_idem (w : World) (hnd : (keysW w).Nodup) (hg : GoodZips w) :
    unzip_files_in_directory (unzip_files_in_directory w) = unzip_files_in_directory w := by
  have h1 := unzip_eq_applyWrites w hg
  have h2 := unzip_eq_applyWrites _ (goodZips_unzip w hg)
  rw [h2, allZipWrites_unzip w hg, h1]
  exact applyWrites_replay _ _ hnd

/-! ### The dry-run orchestrator -/

theorem process_move_none_dry (cwd fp : String) (year : Option Nat) (kws : List (List Char))
    (cy : Nat) (exF : String → Bool) (suf : String) (ex : Extraction) :
    (process_pdf_file cwd fp year kws cy true exF suf ex).move = none := by
  cases ex with
  | fail => rfl
  | ok text ocr =>
    simp only [process_pdf_file]
    split
    · rfl
    · split
      · cases extract_date_from_text cy text with
        | none => rfl
        | some my => rfl
      · rfl

theorem mainStep_dry (cy : Nat) (kws : List (List Char)) (v : World)
    (acc : List (String × Outcome)) (n : String) :
    mainStep cy kws true (v, acc) n = (v, acc ++ [(n, dryOutcome cy kws v n)]) := by
  unfold mainStep dryOutcome
  cases hlk : lookupW v n with
  | none => simp [process_move_none_dry]
  | some d =>
    cases d with
    | doc ex => simp [process_move_none_dry]
    | zipData es => simp [process_move_none_dry]

theorem mainFold_dry (cy : Nat) (kws : List (List Char)) (v : World) (ns : List String)
    (acc : List (String × Outcome)) :
    ns.foldl (mainStep cy kws true) (v, acc) =
      (v, acc ++ ns.map (fun n => (n, dryOutcome cy kws v n))) := by
  induction ns generalizing acc with
  | nil => simp
  | cons n t ih =>
    rw [List.foldl_cons, mainStep_dry, ih]
    simp

theorem mainRun_dry_eq (cy : Nat) (kws : List (List Char)) (w : World) :
    mainRun cy kws true w =
      (unzip_files_in_directory w,
       (find_pdf_files (unzip_files_in_directory w)).map
         (fun n => (n, dryOutcome cy kws (unzip_files_in_directory w) n))) := by
  unfold mainRun
  rw [mainFold_dry]
  simp

end PdfSort

namespace PdfSort

/-! ### Helper lemmas about the pipeline counters -/

theorem process_delta_one (cwd fp : String) (year : Option Nat) (kws : List (List Char))
    (cy : Nat) (dry : Bool) (exF : String → Bool) (suf : String) (ex : Extraction) :
    (process_pdf_file cwd fp year kws cy dry exF suf ex).dSorted +
      (process_pdf_file cwd fp year kws cy dry exF suf ex).dUnsorted = 1 := by
  cases ex with
  | fail => rfl
  | ok text ocr =>
    simp only [process_pdf_file]
    split
    · rfl
    · split
      · cases extract_date_from_text cy text with
        | none => rfl
        | some my => rfl
      · rfl

theorem foldl_stats_total (cwd : String) (year : Option Nat) (kws : List (List Char))
    (cy : Nat) (dry : Bool) (ts : List FileTask) (st : Stats) :
    (ts.foldl
        (fun st t =>
          applyResult st
            (process_pdf_file cwd t.filepath year kws cy dry t.existsF t.suffix t.ex))
        st).total_files = st.total_files := by
  induction ts generalizing st with
  | nil => rfl
  | cons t ts ih =>
    rw [List.foldl_cons, ih]
    rfl

theorem foldl_stats_sum (cwd : String) (year : Option Nat) (kws : List (List Char))
    (cy : Nat) (dry : Bool) (ts : List FileTask) (st : Stats) :
    (ts.foldl
        (fun st t =>
          applyResult st
            (process_pdf_file cwd t.filepath year kws cy dry t.existsF t.suffix t.ex))
        st).sorted_files +
      (ts.foldl
        (fun st t =>
          applyResult st
            (process_pdf_file cwd t.filepath year kws cy dry t.existsF t.suffix t.ex))
        st).unsorted_files = st.sorted_files + st.unsorted_files + ts.length := by
  induction ts generalizing st with
  | nil => simp
  | cons t ts ih =>
    rw [List.foldl_cons, ih]
    have h := process_delta_one cwd t.filepath year kws cy dry t.existsF t.suffix t.ex
    simp only [applyResult, List.length_cons]
    omega

/-! ### Helper lemmas about the year range check -/

theorem range_gate {cy yr m' m y : Nat}
    (h : (if 1900 ≤ yr ∧ yr ≤ cy + 1 then some (m', yr) else none) = some (m, y)) :
    1900 ≤ y ∧ y ≤ cy + 1 := by
  split at h
  · rename_i hcond
    simp only [Option.some.injEq, Prod.mk.injEq] at h
    obtain ⟨-, hy⟩ := h
    rw [← hy]
    exact hcond
  · exact absurd h (by simp)

theorem tryTemplates_range (cy : Nat) (s : List Char) (m y : Nat)
    (h : tryTemplates cy s = some (m, y)) : 1900 ≤ y ∧ y ≤ cy + 1 := by
  obtain ⟨t, -, ht⟩ := pickFirst_some h
  cases hs : strptimeTmpl t s with
  | none => rw [hs] at ht; simp at ht
  | some my =>
    obtain ⟨m', yObj⟩ := my
    rw [hs] at ht
    exact range_gate ht

/-! ### Helper lemmas showing the long-month matches fail every template -/

theorem dropWhile_append_singleton {p : Char → Bool} {c : Char} (hc : p c = false)
    (xs : List Char) : ∃ ys, (xs ++ [c]).dropWhile p = ys ++ [c] := by
  induction xs with
  | nil =>
    refine ⟨[], ?_⟩
    simp [List.dropWhile, hc]
  | cons x t ih =>
    by_cases hx : p x = true
    · obtain ⟨ys, hys⟩ := ih
      refine ⟨ys, ?_⟩
      rw [List.cons_append, List.dropWhile_cons_of_pos hx, hys]
    · refine ⟨x :: t, ?_⟩
      rw [List.cons_append, List.dropWhile_cons_of_neg (by simpa using hx)]

theorem stripCs_cons {c : Char} (hc : isSpaceChar c = false) (l : List Char) :
    ∃ r, stripCs (c :: l) = c :: r := by
  unfold stripCs lstripCs
  rw [List.dropWhile_cons_of_neg (by simp [hc]), List.reverse_cons]
  obtain ⟨ys, hys⟩ :=
    dropWhile_append_singleton (p := fun x => isSpaceChar x) (c := c) (by simp [hc]) l.reverse
  rw [hys, List.reverse_append]
  exact ⟨ys.reverse, by simp⟩

theorem cleanMatched_cons {c : Char} (hsp : isSpaceChar c = false) (hdash : ¬ c = '-')
    (l : List Char) : ∃ r, cleanMatched (c :: l) = c :: r := by
  unfold cleanMatched
  obtain ⟨r1, hr1⟩ := stripCs_cons hsp l
  rw [hr1]
  by_cases hcond : ((c :: r1).contains '-' && (c :: r1).contains ':') = true
  · rw [if_pos hcond, List.takeWhile_cons_of_pos (by simp [hdash])]
    obtain ⟨r2, hr2⟩ := stripCs_cons hsp (List.takeWhile (fun x => x != '-') r1)
    rw [hr2]
    exact ⟨r2, rfl⟩
  · rw [if_neg hcond]
    exact ⟨r1, rfl⟩

theorem dayCandidates_eq_nil {c : Char} (hd : c.isDigit = false) (hsp : ¬ c = ' ')
    (l : List Char) : dayCandidates (c :: l) = [] := by
  have h3 : ¬ c = '3' := fun h => by rw [h] at hd; exact absurd hd (by decide)
  have h1 : ¬ c = '1' := fun h => by rw [h] at hd; exact absurd hd (by decide)
  have h2 : ¬ c = '2' := fun h => by rw [h] at hd; exact absurd hd (by decide)
  have h0 : ¬ c = '0' := fun h => by rw [h] at hd; exact absurd hd (by decide)
  cases l with
  | nil => simp [dayCandidates, hd, h3, h1, h2, h0, hsp]
  | cons b t => simp [dayCandidates, hd, h3, h1, h2, h0, hsp]

theorem year4Parse_eq_none {c : Char} (hd : c.isDigit = false) (l : List Char) :
    year4Parse (c :: l) = none := by
  rcases l with _ | ⟨b, _ | ⟨e, _ | ⟨f, t⟩⟩⟩ <;> simp [year4Parse, hd]

theorem tryTemplates_head_fails (cy : Nat) {c : Char} (hd : c.isDigit = false)
    (hsp : ¬ c = ' ') (l : List Char) : tryTemplates cy (c :: l) = none := by
  have hday := dayCandidates_eq_nil hd hsp l
  have hy4 := year4Parse_eq_none hd l
  simp [tryTemplates, templates, pickFirst, strptimeTmpl, runTmplRaw, runDmyRaw, runDbYRaw,
    runYmdRaw, hday, hy4]

theorem tryTemplates_clean_cons_fails (cy : Nat) {c : Char} (hd : c.isDigit = false)
    (hsp : ¬ c = ' ') (hspc : isSpaceChar c = false) (hdash : ¬ c = '-') (l : List Char) :
    tryTemplates cy (cleanMatched (c :: l)) = none := by
  obtain ⟨r, hr⟩ := cleanMatched_cons hspc hdash l
  rw [hr]
  exact tryTemplates_head_fails cy hd hsp r

theorem longMonth_match_no_parse (cy : Nat) (s mt : List Char)
    (h : matchLongMonthAt s = some mt) : tryTemplates cy (cleanMatched mt) = none := by
  obtain ⟨nm, hnm, hf⟩ := pickFirst_some h
  by_cases hh : headMatches nm s = true
  · rw [if_pos hh] at hf
    obtain ⟨t, -, rfl⟩ := Option.map_eq_some'.mp hf
    simp only [monthNamesEn, List.mem_cons, List.not_mem_nil, or_false] at hnm
    rcases hnm with rfl | rfl | rfl | rfl | rfl | rfl | rfl | rfl | rfl | rfl | rfl | rfl <;>
      exact tryTemplates_clean_cons_fails cy (by decide) (by decide) (by decide) (by decide) _
  · rw [if_neg hh] at hf
    exact absurd hf (by simp)

end PdfSort

namespace PdfSort

/-- C1: every `process_pdf_file` call records exactly one terminal outcome,
with Non-Invoice and Sorted-Invoice adding 1 to `sorted_files`, Unsortable
and Error adding 1 to `unsorted_files` and Error also adding 1 to `errors`;
so `sorted_files + unsorted_files` grows by exactly one per call, and after
the orchestrator processes the N discovered files,
`sorted_files + unsorted_files = total_files = N`. -/
theorem claim1_counters_sum (cwd fp : String) (year : Option Nat) (kws : List (List Char))
    (cy : Nat) (dry : Bool) (exF : String → Bool) (suf : String) (ex : Extraction)
    (tasks : List FileTask) :
    (process_pdf_file cwd fp year kws cy dry exF suf ex).dSorted +
        (process_pdf_file cwd fp year kws cy dry exF suf ex).dUnsorted = 1 ∧
      (process_pdf_file cwd fp year kws cy dry exF suf ex).dSorted =
        (match (process_pdf_file cwd fp year kws cy dry exF suf ex).outcome with
          | .nonInvoice => 1 | .sortedInvoice _ _ => 1 | .unsortable => 0 | .error => 0) ∧
      (process_pdf_file cwd fp year kws cy dry exF suf ex).dUnsorted =
        (match (process_pdf_file cwd fp year kws cy dry exF suf ex).outcome with
          | .nonInvoice => 0 | .sortedInvoice _ _ => 0 | .unsortable => 1 | .error => 1) ∧
      (process_pdf_file cwd fp year kws cy dry exF suf ex).dErrors =
        (match (process_pdf_file cwd fp year kws cy dry exF suf ex).outcome with
          | .error => 1 | _ => 0) ∧
      (runPipelines cwd year kws cy dry tasks).sorted_files +
          (runPipelines cwd year kws cy dry tasks).unsorted_files =
        (runPipelines cwd year kws cy dry tasks).total_files ∧
      (runPipelines cwd year kws cy dry tasks).total_files = tasks.length := by
  have htab :
      (process_pdf_file cwd fp year kws cy dry exF suf ex).dSorted =
        (match (process_pdf_file cwd fp year kws cy dry exF suf ex).outcome with
          | .nonInvoice => 1 | .sortedInvoice _ _ => 1 | .unsortable => 0 | .error => 0) ∧
      (process_pdf_file cwd fp year kws cy dry exF suf ex).dUnsorted =
        (match (process_pdf_file cwd fp year kws cy dry exF suf ex).outcome with
          | .nonInvoice => 0 | .sortedInvoice _ _ => 0 | .unsortable => 1 | .error => 1) ∧
      (process_pdf_file cwd fp year kws cy dry exF suf ex).dErrors =
        (match (process_pdf_file cwd fp year kws cy dry exF suf ex).outcome with
          | .error => 1 | _ => 0) := by
    cases ex with
    | fail => exact ⟨rfl, rfl, rfl⟩
    | ok text ocr =>
      simp only [process_pdf_file]
      split
      · exact ⟨rfl, rfl, rfl⟩
      · split
        · cases extract_date_from_text cy text with
          | none => exact ⟨rfl, rfl, rfl⟩
          | some my => exact ⟨rfl, rfl, rfl⟩
        · exact ⟨rfl, rfl, rfl⟩
  have htot : (runPipelines cwd year kws cy dry tasks).total_files = tasks.length := by
    unfold runPipelines
    rw [foldl_stats_total]
  have hsum :
      (runPipelines cwd year kws cy dry tasks).sorted_files +
          (runPipelines cwd year kws cy dry tasks).unsorted_files =
        (runPipelines cwd year kws cy dry tasks).total_files := by
    unfold runPipelines
    rw [foldl_stats_sum, foldl_stats_total]
    simp
  exact ⟨process_delta_one cwd fp year kws cy dry exF suf ex, htab.1, htab.2.1, htab.2.2,
    hsum, htot⟩

/-- C2 counterexample: a preview-mode (dry-run) orchestrator run is not
mutation free: over a directory holding one ZIP archive, the pre-pass
extracts the archive's entry even in preview mode, so the directory after
the run differs from the directory before it (`b.pdf` did not exist and now
does). -/
theorem claim2_counterexample :
    (mainRun 2026 mainKeywords true zipWorldExample).1 ≠ zipWorldExample ∧
      lookupW zipWorldExample "b.pdf" = none ∧
      lookupW (mainRun 2026 mainKeywords true zipWorldExample).1 "b.pdf" =
        some (FileData.doc (Extraction.ok ("facture 13/07/2023".toList) false)) := by decide

/-- C2 (amended): in preview mode the only filesystem mutation is the ZIP
pre-pass (no move and no directory cleanup happens, so the final directory
state is exactly `unzip_files_in_directory` of the initial one), and the
run is idempotent: over a directory with distinct file names whose archive
entries are not themselves named `*.zip`, running the orchestrator again on
the directory left by a preview run reproduces the same directory state and
the same reported decisions. -/
theorem claim2_preview_mode (cy : Nat) (kws : List (List Char)) (w : World)
    (hnd : (keysW w).Nodup) (hg : goodZipEntries w = true) :
    (mainRun cy kws true w).1 = unzip_files_in_directory w ∧
      mainRun cy kws true ((mainRun cy kws true w).1) = mainRun cy kws true w := by
  have hgz := goodZips_of_goodZipEntries hg
  have hid := unzip_idem w hnd hgz
  constructor
  · rw [mainRun_dry_eq]
  · rw [mainRun_dry_eq cy kws w]
    show mainRun cy kws true (unzip_files_in_directory w) = _
    rw [mainRun_dry_eq cy kws (unzip_files_in_directory w), hid]

/-- Witness for C2 at the concrete one-archive directory. -/
theorem claim2_witness :
    (mainRun 2026 mainKeywords true zipWorldExample).1 =
        unzip_files_in_directory zipWorldExample ∧
      mainRun 2026 mainKeywords true ((mainRun 2026 mainKeywords true zipWorldExample).1) =
        mainRun 2026 mainKeywords true zipWorldExample :=
  claim2_preview_mode 2026 mainKeywords zipWorldExample (by decide) (by decide)

/-- C3 counterexample: the French-month fallback performs no year range
check, so `extract_date_from_text` can return a year far outside
`[1900, current_year + 1]` (here with `current_year = 2026`). -/
theorem claim3_counterexample :
    extract_date_from_text 2026 ("mars 9999".toList) = some (3, 9999) ∧
      ¬ (9999 ≤ 2026 + 1) := by decide

/-- C3 (amended): on the numeric-pattern paths the year of every returned
pair lies within `[1900, current_year + 1]` (out-of-range parses are
rejected and extraction continues); the French-month fallback path performs
no such check. -/
theorem claim3_numeric_year_range (cy : Nat) (text : List Char) (m y : Nat)
    (h : extractDateNumeric cy text = some (m, y)) : 1900 ≤ y ∧ y ≤ cy + 1 := by
  obtain ⟨p, -, hp⟩ := pickFirst_some h
  cases hre : reSearch (patMatchAt p) text with
  | none => rw [hre] at hp; exact absurd hp (by simp)
  | some mt =>
    rw [hre] at hp
    exact tryTemplates_range cy (cleanMatched mt) m y hp

/-- Witness for C3 at a concrete numeric date. -/
theorem claim3_witness : 1900 ≤ 2023 ∧ 2023 ≤ 2026 + 1 :=
  claim3_numeric_year_range 2026 ("13/07/2023".toList) 7 2023 (by decide)

/-- C4 counterexample: `extract_date_from_text "facture 01.12.99 merci"`
does not return `(12, 2099)`: the 2-digit year 99 is normalised to 2099,
which the `[1900, current_year + 1]` range check then rejects (for
`current_year = 2026`), and no other pattern or fallback applies, so the
result is absent. -/
theorem claim4_counterexample :
    extract_date_from_text 2026 ("facture 01.12.99 merci".toList) = none := by decide

/-- C4 (amended): a matched 2-digit year yy is normalised to
`2000 + (yy % 100)`, but the result is still subject to the year range
check: with `current_year = 2026`, `01.12.24` yields (12, 2024) and
`31.12.27` the boundary (12, 2027), while `01.01.28` (year 2028 after
normalisation) is rejected and yields absent — as is `01.12.99`
(year 2099), contrary to the claim's example. -/
theorem claim4_two_digit_normalisation :
    extract_date_from_text 2026 ("facture 01.12.24 merci".toList) = some (12, 2024) ∧
      extract_date_from_text 2026 ("facture 31.12.27 xx".toList) = some (12, 2027) ∧
      extract_date_from_text 2026 ("facture 01.01.28 xx".toList) = none := by decide

/-- C5: for a text with a desired keyword and no undesired keyword, the
pipeline classifies Sorted-Invoice when a date is extractable, moving the
file to `<root>/<year>/Facture fournisseur/<MM>/<filename>` (collision-free
case), and Unsortable when no date is extractable, appending the file to
the unsorted list and incrementing the unsorted counter with no move. -/
theorem claim5_invoice_branch (cwd fp : String) (year : Option Nat) (kws : List (List Char))
    (cy : Nat) (text : List Char) (exF : String → Bool) (suf : String) (ocr : Bool)
    (hund : contains_undesired_keywords text = false)
    (hkw : (kws.any (fun k => containsSub (pyLower k) text) ||
        contains_desired_keywords text) = true)
    (hfree : ∀ s, exF s = false) :
    (∀ m y, extract_date_from_text cy text = some (m, y) →
      (process_pdf_file cwd fp year kws cy false exF suf (.ok text ocr)).outcome =
          .sortedInvoice m y ∧
        (process_pdf_file cwd fp year kws cy false exF suf (.ok text ocr)).move =
          some (fp,
            pathJoin
              (pathJoin (pathJoin (pathJoin cwd (natStr y)) "Facture fournisseur")
                (String.mk (pad2 m)))
              (basenameOf fp)) ∧
        (process_pdf_file cwd fp year kws cy false exF suf (.ok text ocr)).dSorted = 1) ∧
    (extract_date_from_text cy text = none →
      (process_pdf_file cwd fp year kws cy false exF suf (.ok text ocr)).outcome =
          .unsortable ∧
        (process_pdf_file cwd fp year kws cy false exF suf (.ok text ocr)).unsortedAppend =
          some fp ∧
        (process_pdf_file cwd fp year kws cy false exF suf (.ok text ocr)).dUnsorted = 1 ∧
        (process_pdf_file cwd fp year kws cy false exF suf (.ok text ocr)).move = none) := by
  constructor
  · intro m y hdate
    simp only [process_pdf_file, hund, hkw, hdate, Bool.false_eq_true, if_false, if_true]
    simp [construct_target_file_path, hfree]
  · intro hnone
    simp only [process_pdf_file, hund, hkw, hnone, Bool.false_eq_true, if_false, if_true]
    simp

/-- Witness for C5 at a concrete invoice text with a parseable date. -/
theorem claim5_witness :
    (process_pdf_file "/w" "/w/a.pdf" none mainKeywords 2026 false (fun _ => false) "xyz"
          (.ok ("facture 13/07/2023".toList) false)).outcome = Outcome.sortedInvoice 7 2023 ∧
      (process_pdf_file "/w" "/w/a.pdf" none mainKeywords 2026 false (fun _ => false) "xyz"
          (.ok ("facture 13/07/2023".toList) false)).move =
        some ("/w/a.pdf",
          pathJoin
            (pathJoin (pathJoin (pathJoin "/w" (natStr 2023)) "Facture fournisseur")
              (String.mk (pad2 7)))
            (basenameOf "/w/a.pdf")) ∧
      (process_pdf_file "/w" "/w/a.pdf" none mainKeywords 2026 false (fun _ => false) "xyz"
          (.ok ("facture 13/07/2023".toList) false)).dSorted = 1 :=
  (claim5_invoice_branch "/w" "/w/a.pdf" none mainKeywords 2026 ("facture 13/07/2023".toList)
      (fun _ => false) "xyz" false (by decide) (by decide) (fun _ => rfl)).1 7 2023 (by decide)

/-- C6: the year filter argument of `process_pdf_file` is bound but never
read, so every aspect of the result (classification outcome, destination,
move, counter updates) is identical for any two values of it. -/
theorem claim6_year_filter_unused (cwd fp : String) (kws : List (List Char)) (cy : Nat)
    (dry : Bool) (exF : String → Bool) (suf : String) (ex : Extraction) (a b : Option Nat) :
    process_pdf_file cwd fp a kws cy dry exF suf ex =
      process_pdf_file cwd fp b kws cy dry exF suf ex := rfl

/-- C7 counterexample: the keyword matchers lowercase the keywords, not the
text, so they are not invariant under letter-case changes of the text:
"FACTURE" and "facture" are case variants, yet only the lowercase one is
detected by `contains_desired_keywords`. -/
theorem claim7_counterexample :
    pyLower ("FACTURE".toList) = pyLower ("facture".toList) ∧
      contains_desired_keywords ("FACTURE".toList) = false ∧
      contains_desired_keywords ("facture".toList) = true := by decide

/-- C7 (amended): keyword matching is case-insensitive in the keywords
(each keyword is lowercased before the substring test), so keyword lists
that agree after lowercasing behave identically on every text; it is not
case-insensitive in the text itself — the pipeline achieves that only by
lowercasing the extracted text before calling these functions. -/
theorem claim7_keyword_case_insensitive (text : List Char) (k1 k2 : List (List Char))
    (h : k1.map pyLower = k2.map pyLower) :
    contains_undesired_keywords text k1 = contains_undesired_keywords text k2 ∧
      contains_desired_keywords text k1 = contains_desired_keywords text k2 := by
  have hany : ∀ ks : List (List Char),
      ks.any (fun k => containsSub (pyLower k) text) =
        (ks.map pyLower).any (fun k => containsSub k text) := by
    intro ks
    rw [List.any_map]
    rfl
  unfold contains_undesired_keywords contains_desired_keywords
  rw [hany k1, hany k2, h]
  exact ⟨rfl, rfl⟩

/-- Witness for C7 with two keyword lists that agree after lowercasing. -/
theorem claim7_witness :
    contains_undesired_keywords ("la facture 12".toList) [("FActure".toList)] =
        contains_undesired_keywords ("la facture 12".toList) [("facture".toList)] ∧
      contains_desired_keywords ("la facture 12".toList) [("FActure".toList)] =
        contains_desired_keywords ("la facture 12".toList) [("facture".toList)] :=
  claim7_keyword_case_insensitive ("la facture 12".toList) [("FActure".toList)]
    [("facture".toList)] (by decide)

/-- C8: evaluating the pool-size expression `os.cpu_count()*2 or 1` of the
source raises `TypeError` in the case where the capacity is unknown
(`os.cpu_count()` returns `None`), because the multiplication is evaluated
before the `or`; for every known capacity it yields a positive bound. -/
theorem claim8_pool_size :
    threadPoolMaxWorkers none = PyEval.typeError ∧
      ∀ n : Nat, ∃ k : Nat, threadPoolMaxWorkers (some n) = PyEval.ok k ∧ 1 ≤ k := by
  refine ⟨rfl, fun n => ?_⟩
  by_cases h : n * 2 = 0
  · exact ⟨1, by simp [threadPoolMaxWorkers, h], le_refl 1⟩
  · exact ⟨n * 2, by simp [threadPoolMaxWorkers, h], Nat.one_le_iff_ne_zero.mpr h⟩

/-- C9 counterexample: "July 13, 2023" yields no date: the long-month
pattern's day group only matches 01-12, no other pattern matches, and the
French fallback finds no French month, so the result is absent. -/
theorem claim9_counterexample :
    extract_date_from_text 2026 ("July 13, 2023".toList) = none := by decide

/-- C9 (amended): the English long-month form "Month dd, yyyy" is not a
supported format: every match of that pattern begins with a capital month
name and therefore fails all ten parse templates (which all start with a
digit, a space-padded digit, or a four-digit year), so the pattern never
produces a date — "July 05, 2023" yields absent even though its day is in
the accepted 01-12 range, while the abbreviated form "05 Jul 2023" is
parsed. -/
theorem claim9_long_month_unsupported :
    (∀ (cy : Nat) (s mt : List Char), matchLongMonthAt s = some mt →
        tryTemplates cy (cleanMatched mt) = none) ∧
      extract_date_from_text 2026 ("July 05, 2023".toList) = none ∧
      extract_date_from_text 2026 ("05 Jul 2023".toList) = some (7, 2023) := by
  refine ⟨longMonth_match_no_parse, by decide, by decide⟩

/-- Witness for C9 at a concrete long-month match. -/
theorem claim9_witness :
    tryTemplates 2026 (cleanMatched ("July 05, 2023".toList)) = none :=
  claim9_long_month_unsupported.1 2026 ("July 05, 2023".toList) ("July 05, 2023".toList)
    (by decide)

/-- C10: only the first substring matching a pattern is considered: in
"31-04-2023 et 13-07-2023" the dash pattern's leftmost match is the
impossible date "31-04-2023", which fails every parse template, and since
no later pattern matches either, extraction returns absent — although the
later substring "13-07-2023" alone yields (7, 2023). -/
theorem claim10_first_match_masking :
    reSearch (patMatchAt DPat.dash4) ("31-04-2023 et 13-07-2023".toList) =
        some ("31-04-2023".toList) ∧
      extract_date_from_text 2026 ("31-04-2023 et 13-07-2023".toList) = none ∧
      extract_date_from_text 2026 ("13-07-2023".toList) = some (7, 2023) := by decide

end PdfSort
